import Mathlib

/-!
# Verification of the Ensemble Stars card-export tool

A shallow embedding, in Lean, of the parts of the program relevant to its
specified behaviour: the target-date policy of the directory analyzer, the
template-mapping and row-building logic of `crawl_es2.py`, the spreadsheet
exporter, the crawl-task state machine and HTTP validation layer of `app.py`,
the multithreaded batch fetcher, and the Redis-backed session cache.

Python strings are modelled as Lean `String`s manipulated through their
underlying `List Char`; Python dicts with string keys either as total
functions `String → String` (when every access supplies a default) or as
association lists.  Machine integers do not occur; all arithmetic is on `Nat`.
-/

namespace ES

/-! ## Python string primitives -/

/-- Characters for which Python's `str.strip()` removes (the Unicode
whitespace set, restricted to the code points that can realistically occur
in this program's data). -/
def pyIsSpace (c : Char) : Bool :=
  c.val == 9 || c.val == 10 || c.val == 11 || c.val == 12 || c.val == 13 ||
  c.val == 28 || c.val == 29 || c.val == 30 || c.val == 31 || c.val == 32 ||
  c.val == 133 || c.val == 160 || c.val == 0x1680 ||
  (0x2000 ≤ c.val && c.val ≤ 0x200a) ||
  c.val == 0x2028 || c.val == 0x2029 || c.val == 0x202f || c.val == 0x205f ||
  c.val == 0x3000

/-- Model of `str.strip()` on the character list. -/
def stripL (l : List Char) : List Char :=
  ((l.dropWhile pyIsSpace).reverse.dropWhile pyIsSpace).reverse

/-- Python `s.strip()`. -/
def pyStrip (s : String) : String := ⟨stripL s.data⟩

/-- Python `s.startswith(pre)`. -/
def pyStartsWith (s pre : String) : Bool := pre.data.isPrefixOf s.data

/-- Python truthiness-based `a or b` on strings (`"" or b = b`). -/
def pyOr (a b : String) : String := if a = "" then b else a

/-- Leftmost index at which `sep` occurs in `s` (as a contiguous sublist). -/
def findSubIdx (sep : List Char) : List Char → Option Nat
  | [] => if sep.isPrefixOf ([] : List Char) then some 0 else none
  | c :: t =>
    if sep.isPrefixOf (c :: t) then some 0
    else (findSubIdx sep t).map (· + 1)

/-- Python's substring containment `sub in hay`. -/
def containsSub (hay sub : String) : Bool := (findSubIdx sub.data hay.data).isSome

/-- Python `s.split(sep)` for a non-empty separator: split at every
occurrence, keeping empty pieces. -/
def splitSub (sep : List Char) (s : List Char) : List (List Char) :=
  if hsep : sep = [] then [s]
  else
    match h : findSubIdx sep s with
    | none => [s]
    | some i =>
      have hne : s ≠ [] := by
        intro hnil
        subst hnil
        simp only [findSubIdx] at h
        cases hp : sep.isPrefixOf ([] : List Char) with
        | false => simp [hp] at h
        | true =>
          cases sep with
          | nil => exact hsep rfl
          | cons a l => simp [List.isPrefixOf] at hp
      have : s.length - (i + sep.length) < s.length := by
        have h1 : 0 < sep.length := List.length_pos.mpr hsep
        have h2 : 0 < s.length := List.length_pos.mpr hne
        omega
      s.take i :: splitSub sep (s.drop (i + sep.length))
  termination_by s.length
  decreasing_by simpa using this

/-- Python `s.split(sep)` on strings. -/
def pySplit (s sep : String) : List String :=
  (splitSub sep.data s.data).map (fun l => ⟨l⟩)

/-- Is `s` a non-empty string of decimal digits (Python `re.match(r"^\d+$", s)`). -/
def isAllDigits (s : String) : Bool := s ≠ "" && s.data.all Char.isDigit

/-! ## Regex-shaped scanners

The program uses a handful of fixed regular expressions; each is translated
into a dedicated scanner with `re.search`'s leftmost-match semantics. -/

/-- Model of `re.search(pre ++ "([^c₁c₂…]+)", s)`: leftmost occurrence of the literal
`pre` followed by a non-empty run of characters outside `stop`; returns the
captured run. -/
def reSearchCap (pre : List Char) (stop : List Char) : List Char → Option (List Char)
  | [] => none
  | c :: t =>
    if pre.isPrefixOf (c :: t) then
      let rest := (c :: t).drop pre.length
      let cap := rest.takeWhile (fun x => !stop.contains x)
      if cap.isEmpty then reSearchCap pre stop t else some cap
    else reSearchCap pre stop t

/-- Model of `re.search(pre ++ "([^close]+)" ++ close, s)`: leftmost occurrence of the
literal `pre`, a non-empty capture, and the closing character. -/
def reSearchBetween (pre : List Char) (close : Char) : List Char → Option (List Char)
  | [] => none
  | c :: t =>
    if pre.isPrefixOf (c :: t) then
      let rest := (c :: t).drop pre.length
      let cap := rest.takeWhile (fun x => x ≠ close)
      if !cap.isEmpty && !(rest.drop cap.length).isEmpty then some cap
      else reSearchBetween pre close t
    else reSearchBetween pre close t

/-- Like `reSearchBetween` but with an alternation `(pre₁|pre₂)` before the
capture, tried in that order at each position. -/
def reSearchBetween2 (pre1 pre2 : List Char) (close : Char) : List Char → Option (List Char)
  | [] => none
  | c :: t =>
    if pre1.isPrefixOf (c :: t) then
      let rest := (c :: t).drop pre1.length
      let cap := rest.takeWhile (fun x => x ≠ close)
      if !cap.isEmpty && !(rest.drop cap.length).isEmpty then some cap
      else reSearchBetween2 pre1 pre2 close t
    else if pre2.isPrefixOf (c :: t) then
      let rest := (c :: t).drop pre2.length
      let cap := rest.takeWhile (fun x => x ≠ close)
      if !cap.isEmpty && !(rest.drop cap.length).isEmpty then some cap
      else reSearchBetween2 pre1 pre2 close t
    else reSearchBetween2 pre1 pre2 close t

/-- Digit value of a character, for Python `int()` on matched digit groups. -/
def digitVal (c : Char) : Nat := c.toNat - 48

/-- Match `(\d{1,2})月(\d{1,2})日` at the head of the character list
(greedy on both digit groups, with regex backtracking), returning
`(month, day, rest)`. -/
def matchMonthDayAt (s : List Char) : Option (Nat × Nat) :=
  let tryDay (m : Nat) (r : List Char) : Option (Nat × Nat) :=
    match r with
    | d1 :: d2 :: rest =>
      if d1.isDigit && d2.isDigit then
        match rest with
        | x :: _ => if x = '日' then some (m, 10 * digitVal d1 + digitVal d2) else
            if d2 = '日' then some (m, digitVal d1) else none
        | [] => if d2 = '日' then some (m, digitVal d1) else none
      else if d1.isDigit && d2 = '日' then some (m, digitVal d1)
      else none
    | [_] => none
    | [] => none
  match s with
  | c1 :: c2 :: rest =>
    if c1.isDigit && c2.isDigit then
      -- try the two-digit month first (greedy), then backtrack to one digit
      (match rest with
       | x :: r2 => if x = '月' then tryDay (10 * digitVal c1 + digitVal c2) r2 else none
       | [] => none).orElse
      (fun _ => if c2 = '月' then tryDay (digitVal c1) rest else none)
    else if c1.isDigit && c2 = '月' then tryDay (digitVal c1) rest
    else none
  | _ => none

/-- Model of `re.search(r"(\d{1,2})月(\d{1,2})日", s)`: leftmost match. -/
def scanMonthDay : List Char → Option (Nat × Nat)
  | [] => none
  | c :: t =>
    match matchMonthDayAt (c :: t) with
    | some md => some md
    | none => scanMonthDay t

/-- Match `(\d{2})月(\d{2})日` at the head of the character list. -/
def matchMMDDAt (s : List Char) : Option (Nat × Nat) :=
  match s with
  | c1 :: c2 :: g :: d1 :: d2 :: r :: _ =>
    if c1.isDigit && c2.isDigit && g = '月' && d1.isDigit && d2.isDigit && r = '日' then
      some (10 * digitVal c1 + digitVal c2, 10 * digitVal d1 + digitVal d2)
    else none
  | _ => none

/-- Model of `re.search(r"(\d{2})月(\d{2})日", s)`: leftmost match. -/
def scanMMDD : List Char → Option (Nat × Nat)
  | [] => none
  | c :: t =>
    match matchMMDDAt (c :: t) with
    | some md => some md
    | none => scanMMDD t

/-! ## Target-date policy (`crawl_es2.extract_cards_from_directory.is_target_date`
and `extract_card_links.is_target_date`) -/

/-- Model of `is_target_date(day, month)` nested in `crawl_es2.extract_cards_from_directory`:
the 10th/14th/15th/25th of any month, or the last two days of the month with
February hardcoded to its non-leap length. -/
def is_target_date (day month : Nat) : Bool :=
  if day == 10 || day == 14 || day == 15 || day == 25 then true
  else if month == 1 || month == 3 || month == 5 || month == 7 || month == 8 ||
          month == 10 || month == 12 then day == 30 || day == 31
  else if month == 4 || month == 6 || month == 9 || month == 11 then day == 29 || day == 30
  else if month == 2 then day == 27 || day == 28
  else false

/-- Model of `calendar.monthrange(year, month)[1]`: number of days in the month.
Months outside 1..12 raise in Python; modelled as `none`. -/
def monthrangeDays (year month : Nat) : Option Nat :=
  if month == 1 || month == 3 || month == 5 || month == 7 || month == 8 ||
     month == 10 || month == 12 then some 31
  else if month == 4 || month == 6 || month == 9 || month == 11 then some 30
  else if month == 2 then
    some (if year % 4 == 0 && (year % 100 != 0 || year % 400 == 0) then 29 else 28)
  else none

/-- Model of `extract_card_links.get_month_end_day(month)` with its fixed default
`year=2025`. -/
def get_month_end_day (month : Nat) : Option Nat := monthrangeDays 2025 month

/-- Model of `extract_card_links.is_target_date(date_str)`: finds the first
`(\d{2})月(\d{2})日` substring; no match returns `False`; a month outside
1..12 makes `calendar.monthrange` raise (modelled as `none`). -/
def is_target_date_str (s : String) : Option Bool :=
  match scanMMDD s.data with
  | none => some false
  | some (month, day) =>
    if day == 10 || day == 14 || day == 15 || day == 25 then some true
    else
      match get_month_end_day month with
      | none => none
      | some month_end => some (day == month_end || day == month_end - 1)

/-- The target-date policy as the specification words it, for a given target
year: the 10th/14th/15th/25th of any month, or either of the last two
calendar days of the month computed from the actual days-in-month. -/
def target_date_policy (year day month : Nat) : Bool :=
  day == 10 || day == 14 || day == 15 || day == 25 ||
  (match monthrangeDays year month with
   | some dim => day == dim || day + 1 == dim
   | none => false)

/-! ## The `crawl_es2` module surface

`from crawl_es2 import X` succeeds exactly for the module-level bindings of
`crawl_es2.py`.  These are its imports and its seventeen top-level function
definitions; `export_cards_to_excel` (imported by `app.CrawlTask._generate_excel`)
and `find_cards_by_date_with_dynamic_event_names` (imported by
`app.analyze_directory_url`; in `crawl_es2.py` it is only a function nested
inside `extract_cards_from_directory`) are not among them. -/
def crawl_es2_module_names : List String :=
  ["os", "datetime", "re", "sys", "Dict", "List", "Tuple", "HAS_CRAWL4AI",
   "requests", "BeautifulSoup", "pd", "MultiThreadedCardFetcher",
   "crawl_page", "find_card_links_loose", "find_card_links", "parse_card_name",
   "extract_cards_from_directory", "extract_event_name_from_listing",
   "extract_additional_cards_from_listing", "extract_basic_info",
   "extract_status", "extract_skills", "extract_road_items", "build_row",
   "map_to_template", "write_excel_rows", "main",
   "extract_cards_with_multithreaded_details", "crawl_and_extract_with_multithreading"]

/-! ## Template mapping (`crawl_es2.map_to_template`)

A parsed row (a Python dict with string keys and string values, every access
of which supplies a `""` default) is modelled as a total function
`String → String`. -/

/-- A parsed card row: Python dict, read only through `.get(k, "")`-style
accesses, hence a total function with `""` for absent keys. -/
def Row := String → String

/-- Build a `Row` from explicit bindings (used for concrete witnesses). -/
def rowOf (l : List (String × String)) : Row := fun k => (l.lookup k).getD ""

/-- Model of `is_5_star` as computed in `map_to_template` (and identically in `main`'s
dual-row expansion): rarity field, or a star marker embedded in the name. -/
def is5StarOf (row : Row) : Bool :=
  pyStrip (row "レアリティ") == "☆5" || containsSub (row "卡面名称") "☆5" ||
    containsSub (row "卡面名称") "★5"

/-- Model of `is_4_star` in `map_to_template`. -/
def is4StarOf (row : Row) : Bool :=
  pyStrip (row "レアリティ") == "☆4" || containsSub (row "卡面名称") "☆4" ||
    containsSub (row "卡面名称") "★4"

/-- Model of `is_3_star` in `map_to_template`. -/
def is3StarOf (row : Row) : Bool :=
  pyStrip (row "レアリティ") == "☆3" || containsSub (row "卡面名称") "☆3" ||
    containsSub (row "卡面名称") "★3"

/-- Model of `pick_stat(key)` nested in `map_to_template`: empty for ☆3/☆4; in
"initial"(一卡) mode prefer 無凸MAX値, falling back to 完凸MAX値 then 初期値;
in "max"(满破) mode prefer 完凸MAX値 then 無凸MAX値 then 初期値. -/
def pick_stat (row : Row) (use_initial_stats : Bool) (key : String) : String :=
  if is3StarOf row || is4StarOf row then ""
  else if use_initial_stats then
    pyOr (row ("無凸MAX値 " ++ key)) (pyOr (row ("完凸MAX値 " ++ key)) (row ("初期値 " ++ key)))
  else
    pyOr (row ("完凸MAX値 " ++ key)) (pyOr (row ("無凸MAX値 " ++ key)) (row ("初期値 " ++ key)))

/-- Model of `re.search(r"Lv\.N：([^/\n]+)", eff)` followed by `.strip()`, else `""`. -/
def levelLine (n : String) (eff : String) : String :=
  match reSearchCap ("Lv." ++ n ++ "：").data ['/', '\n'] eff.data with
  | some cap => pyStrip ⟨cap⟩
  | none => ""

/-- The `for sep in separators: if sep in road_items: items = road_items.split(sep)`
loop with separators `["；", "/", " / "]`, else a singleton (or nothing when empty). -/
def splitRoadItems (road : String) : List String :=
  if containsSub road "；" then pySplit road "；"
  else if containsSub road "/" then pySplit road "/"
  else if containsSub road " / " then pySplit road " / "
  else if road = "" then [] else [road]

/-- The special-cased card check: `"裏表アンビバレンス" in card_name and "HiMERU" in card_name`. -/
def isAmbivalenceHimeru (row : Row) : Bool :=
  containsSub (row "卡面名称") "裏表アンビバレンス" && containsSub (row "卡面名称") "HiMERU"

/-- Accumulators of the road-item classification loop. -/
structure ItemAcc where
  mv : List String
  room : List String
  bg : List String
  spp : List String
deriving Repr, DecidableEq

/-- One iteration of the `for it in items:` classification loop of
`map_to_template`. -/
def classifyItem (isHimeru : Bool) (acc : ItemAcc) (raw : String) : ItemAcc :=
  let it := pyStrip raw
  if it = "" then acc
  else if containsSub it "MV衣装" then
    if containsSub it "「" && containsSub it "」" then
      match reSearchBetween ("MV衣装「").data '」' it.data with
      | some cap =>
        let costume : String := ⟨cap⟩
        if isHimeru then
          if costume = "アンビバレンス衣装" && !acc.mv.contains costume then
            { acc with mv := acc.mv ++ [costume] }
          else acc
        else if acc.mv.contains costume then acc
        else { acc with mv := acc.mv ++ [costume] }
      | none => acc
    else if !(containsSub it "一覧" || containsSub it "リンク" || containsSub it "あり" ||
              containsSub it "付き" || containsSub it "プレゼント" || containsSub it "ピース") then
      if isHimeru then acc else { acc with mv := acc.mv ++ [it] }
    else acc
  else if containsSub it "ルーム衣装" || containsSub it "房间衣装" then
    if containsSub it "「" && containsSub it "」" then
      match reSearchBetween2 ("ルーム衣装「").data ("房间衣装「").data '」' it.data with
      | some cap =>
        let costume : String := ⟨cap⟩
        if acc.room.contains costume then acc else { acc with room := acc.room ++ [costume] }
      | none => acc
    else if !(containsSub it "一覧" || containsSub it "リンク" || containsSub it "あり") then
      { acc with room := acc.room ++ [it] }
    else acc
  else if containsSub it "背景" then
    if containsSub it "「" && containsSub it "」" then
      match reSearchBetween ("背景「").data '」' it.data with
      | some cap =>
        let bgName : String := ⟨cap⟩
        if acc.bg.contains bgName then acc else { acc with bg := acc.bg ++ [bgName] }
      | none => acc
    else if !(containsSub it "一覧" || containsSub it "リンク") then
      { acc with bg := acc.bg ++ [it] }
    else acc
  else if containsSub it "SPP" then
    if containsSub it "「" && containsSub it "」" then
      match reSearchBetween ("SPP「").data '」' it.data with
      | some cap =>
        let track : String := ⟨cap⟩
        if acc.spp.contains track then acc else { acc with spp := acc.spp ++ [track] }
      | none => acc
    else if !(containsSub it "一覧" || containsSub it "リンク" || containsSub it "あり") &&
            it.data.length > 3 then
      { acc with spp := acc.spp ++ [it] }
    else acc
  else acc

/-- The whole classification pass over the split road items. -/
def roadAcc (row : Row) : ItemAcc :=
  (splitRoadItems (row "取得できるスキル/アイテム")).foldl
    (classifyItem (isAmbivalenceHimeru row)) ⟨[], [], [], []⟩

/-- MV-costume list after the アンビバレンス/HiMERU override. -/
def mvAfterOverride (row : Row) : List String :=
  if isAmbivalenceHimeru row then ["アンビバレンス衣装"] else (roadAcc row).mv

/-- Room-costume list after the アンビバレンス/HiMERU override. -/
def roomAfterOverride (row : Row) : List String :=
  if isAmbivalenceHimeru row then
    if (roadAcc row).room.contains "アンビバレンス衣装" then (roadAcc row).room
    else ["アンビバレンス衣装"]
  else (roadAcc row).room

/-- MV-costume list after preferring the first "main" costume (one with no
parenthetical qualifier). -/
def mvFinal (row : Row) : List String :=
  let mv := mvAfterOverride row
  match mv.filter (fun c => !containsSub c "（" && !containsSub c ")") with
  | m :: _ => [m]
  | [] => mv

/-- Room-costume list, reusing the MV list when empty. -/
def roomFinal (row : Row) : List String :=
  if roomAfterOverride row = [] then mvFinal row else roomAfterOverride row

/-- Displayed card name with normalized rarity suffix. -/
def displayName (row : Row) : String :=
  let name := row "卡面名称"
  let rarity0 := pyStrip (row "レアリティ")
  let rarity :=
    if rarity0 ≠ "" && !pyStartsWith rarity0 "☆" && isAllDigits rarity0 then "☆" ++ rarity0
    else rarity0
  if name ≠ "" && rarity ≠ "" then name ++ " " ++ rarity else name

/-- The status indicator: "一卡" in initial mode, "满破" for a ☆5 card in max
mode, empty otherwise. -/
def statusIndicator (row : Row) (use_initial_stats : Bool) : String :=
  if use_initial_stats then "一卡" else if is5StarOf row then "满破" else ""

/-- Model of Python `" / ".join(...)`. -/
def joinSlash (l : List String) : String := String.intercalate " / " l

/-- The eighteen keys of the `mapped` dict built by `map_to_template`. -/
def templateKeys : List String :=
  ["卡面名称", "活动名称", "center技能名称", "live技能名", "support技能名", "Unnamed: 4",
   "DA", "VO", "PF", "综合值", "center技能", "live技能（lv5）", "support技能（lv3）",
   "MV衣装", "房间衣装", "背景", "spp对应乐曲", "故事"]

/-- The `mapped` dict of `map_to_template`, as a lookup with `""` default
(`mapped.get(col, "")`). -/
def mappedGet (row : Row) (use_initial_stats : Bool) (col : String) : String :=
  if col = "卡面名称" then displayName row
  else if col = "活动名称" then row "活动名称"
  else if col = "center技能名称" then row "センタースキル 名称"
  else if col = "live技能名" then row "ライブスキル 名称"
  else if col = "support技能名" then row "サポートスキル 名称"
  else if col = "Unnamed: 4" then statusIndicator row use_initial_stats
  else if col = "DA" then pick_stat row use_initial_stats "Da"
  else if col = "VO" then pick_stat row use_initial_stats "Vo"
  else if col = "PF" then pick_stat row use_initial_stats "Pf"
  else if col = "综合值" then pick_stat row use_initial_stats "総合値"
  else if col = "center技能" then (if is3StarOf row then "" else row "センタースキル 効果")
  else if col = "live技能（lv5）" then
    (if is3StarOf row then "" else levelLine "5" (row "ライブスキル 効果"))
  else if col = "support技能（lv3）" then
    (if is3StarOf row then "" else levelLine "3" (row "サポートスキル 効果"))
  else if col = "MV衣装" then joinSlash (mvFinal row)
  else if col = "房间衣装" then joinSlash (roomFinal row)
  else if col = "背景" then joinSlash (roadAcc row).bg
  else if col = "spp对应乐曲" then joinSlash (roadAcc row).spp
  else if col = "故事" then ""
  else ""

/-- Model of `map_to_template(row, columns_order, use_initial_stats)`: the returned
dict `{col: mapped.get(col, "") for col in columns_order}`. -/
def map_to_template (row : Row) (columns_order : List String)
    (use_initial_stats : Bool) : List (String × String) :=
  columns_order.map (fun col => (col, mappedGet row use_initial_stats col))

/-- The dual-row expansion in `main` (and reused by the task worker's export
path): ☆5 cards produce a 一卡 row and a 满破 row, all others one row. -/
def expandRow (r : Row) (columns_order : List String) : List (List (String × String)) :=
  if is5StarOf r then
    [map_to_template r columns_order true, map_to_template r columns_order false]
  else
    [map_to_template r columns_order false]

/-! ## Spreadsheet exporter (`crawl_es2.write_excel_rows`) -/

/-- Model of `r.get(col, "")` on a materialized row dict. -/
def dictGetD (r : List (String × String)) (k : String) : String := (r.lookup k).getD ""

/-- Model of `write_excel_rows`: normalize every row to exactly the template columns
(missing value → `""`) and emit them, in the given order, as the worksheet
rows (`pd.DataFrame(normalized, columns=columns_order)`, written without an
index column).  No sorting is performed. -/
def write_excel_rows (rows : List (List (String × String)))
    (columns_order : List String) : List (List (String × String)) :=
  rows.map (fun r => columns_order.map (fun col => (col, dictGetD r col)))

/-- Modelled from the spec (for comparison with `write_excel_rows`): the
claimed export ordering — rows sorted ascending by
`[activity name, card name]` with blank/undefined values normalized to the
sentinel "未知" before comparison. -/
def spec_sortKey (r : List (String × String)) : String × String :=
  (if dictGetD r "活动名称" = "" then "未知" else dictGetD r "活动名称",
   if dictGetD r "卡面名称" = "" then "未知" else dictGetD r "卡面名称")

/-- Code-point-wise lexicographic string comparison (Python/pandas string
ordering). -/
def charListLT : List Char → List Char → Bool
  | [], [] => false
  | [], _ :: _ => true
  | _ :: _, [] => false
  | a :: as, b :: bs =>
    if a.val < b.val then true
    else if b.val < a.val then false
    else charListLT as bs

/-- Strict string comparison on the underlying characters. -/
def strLT (a b : String) : Bool := charListLT a.data b.data

/-- Lexicographic comparison of sort keys (pandas `sort_values` by two columns). -/
def keyLE (a b : String × String) : Bool :=
  strLT a.1 b.1 || (a.1 = b.1 && (strLT a.2 b.2 || a.2 = b.2))

/-- Adjacent-pairs ordering check. -/
def chainLE : List (String × String) → Bool
  | [] => true
  | [_] => true
  | a :: b :: t => keyLE a b && chainLE (b :: t)

/-- Modelled from the spec: "the rows written to the output file are sorted
ascending by [activity name, card name]". -/
def spec_sortedByActivityCard (rows : List (List (String × String))) : Bool :=
  chainLE (rows.map spec_sortKey)

/-! ## Crawl-task state machine (`app.CrawlTask`)

The task's externally visible mutable fields.  Bookkeeping that no claim
touches (task id, submitted events, numeric progress counters, wall-clock
timestamps) is omitted; log entries keep their message and level but not
their wall-clock timestamp. -/

inductive TaskStatus
  | pending
  | running
  | completed
  | failed
  | cancelled
deriving DecidableEq, Repr

/-- Is the status one of the terminal ones? -/
def TaskStatus.isTerminal : TaskStatus → Bool
  | .completed | .failed | .cancelled => true
  | _ => false

structure CrawlTask where
  status : TaskStatus
  cancelled : Bool
  result_file : Option String
  error_message : Option String
  logs : List (String × String)
deriving DecidableEq, Repr

/-- Model of `CrawlTask.__init__`. -/
def mkTask : CrawlTask := ⟨.pending, false, none, none, []⟩

/-- Model of `CrawlTask.start()` (the background-thread launch itself is not modelled;
the worker body appears as `run_crawl`). -/
def startTask (t : CrawlTask) : CrawlTask := { t with status := .running }

/-- Model of `CrawlTask.cancel()`: sets the cooperative flag and—unconditionally—the
status. -/
def cancelTask (t : CrawlTask) : CrawlTask :=
  { t with cancelled := true, status := .cancelled,
           logs := t.logs ++ [("任务已取消", "warning")] }

/-- Model of `from crawl_es2 import export_cards_to_excel` executed inside
`CrawlTask._generate_excel`. -/
def importExportCardsToExcel : Except String Unit :=
  if crawl_es2_module_names.contains "export_cards_to_excel" then Except.ok ()
  else Except.error "cannot import name 'export_cards_to_excel' from 'crawl_es2'"

/-- The outcome of `CrawlTask._generate_excel`: everything before the import
is log/list bookkeeping that cannot fail, then the import runs.  Since the
failing import always raises (see the C1 theorem), no success value is
ever produced; the `.ok` continuation is dead code. -/
def generate_excel_outcome : Except String String :=
  importExportCardsToExcel.bind fun _ =>
    Except.error "unreachable: continuation after the failing import"

/-- The tail of `CrawlTask._run_crawl` after the first cancellation
checkpoint: on an exception from `_generate_excel`, record failure; on
success, record the file and complete unless the cooperative flag was set
meanwhile. -/
def worker_finish (t : CrawlTask) (genResult : Except String String) : CrawlTask :=
  match genResult with
  | .error e =>
    { t with status := .failed, error_message := some e,
             logs := t.logs ++ [("任务失败: " ++ e, "error")] }
  | .ok f =>
    let t1 := { t with result_file := some f,
                       logs := t.logs ++ [("Excel文件生成完成", "success")] }
    if t1.cancelled then t1
    else { t1 with status := .completed, logs := t1.logs ++ [("爬取任务完成", "success")] }

/-- Model of `CrawlTask._run_crawl`, with the `_generate_excel` outcome supplied
explicitly (the actual worker uses `generate_excel_outcome`). -/
def run_crawl (t : CrawlTask) (genResult : Except String String) : CrawlTask :=
  let t0 := { t with logs := t.logs ++ [("开始爬取任务", "info")] }
  if t0.cancelled then t0
  else worker_finish { t0 with logs := t0.logs ++ [("正在生成Excel文件...", "info")] } genResult

/-- The operations that can touch a task after it has been registered:
a cancel request from the API, the worker's tail after its first checkpoint,
and the whole worker body. -/
inductive TaskOp
  | cancel
  | finish (genResult : Except String String)
  | runFull (genResult : Except String String)

/-- Apply an operation to a task. -/
def applyOp : TaskOp → CrawlTask → CrawlTask
  | .cancel, t => cancelTask t
  | .finish g, t => worker_finish t g
  | .runFull g, t => run_crawl t g

/-! ## HTTP routes (`app.analyze`, `app.start_crawl`, `app.get_progress`)

A route's result is modelled as `(HTTP status, success flag)`; downstream
effects irrelevant to the claims are carried by oracles. -/

/-- Model of `POST /api/analyze`: URL validation, then the analyzer (an oracle
`analyzeFn url → (success, events, message)`) and the cache write (an oracle
`saveFn events → Option session_id`). -/
def analyze_route {α : Type} (url : String)
    (analyzeFn : String → Bool × List α × String)
    (saveFn : List α → Option String) : Nat × Bool :=
  let u := pyStrip url
  if u = "" then (400, false)
  else if !(containsSub u "gamerch.com") || !(containsSub u "ensemble-star-music") then
    (400, false)
  else
    let (succ, events, _msg) := analyzeFn u
    if succ && !events.isEmpty then
      match saveFn events with
      | some _ => (200, true)
      | none => (200, succ)
    else (200, succ)

/-- Model of `POST /api/crawl/start` with the submitted events list (`α` stands for
the event JSON objects) and the task registry. -/
def start_crawl_route {α : Type} (events : List α) (newId : String)
    (registry : List (String × CrawlTask)) : (Nat × Bool) × List (String × CrawlTask) :=
  if events.isEmpty then ((400, false), registry)
  else ((200, true), registry ++ [(newId, startTask mkTask)])

/-- Model of `GET /api/progress/{task_id}`. -/
def get_progress_route (registry : List (String × CrawlTask)) (task_id : String) : Nat × Bool :=
  match registry.lookup task_id with
  | none => (404, false)
  | some _ => (200, true)

/-! ## Event-date resolution (`app.analyze_directory_url`) -/

/-- Model of `from crawl_es2 import find_cards_by_date_with_dynamic_event_names`
executed inside the date-map build of `analyze_directory_url`. -/
def importFindCardsByDate : Except String Unit :=
  if crawl_es2_module_names.contains "find_cards_by_date_with_dynamic_event_names" then
    Except.ok ()
  else Except.error "cannot import name 'find_cards_by_date_with_dynamic_event_names' from 'crawl_es2'"

/-- The card-URL→(month, day) and card-URL→month maps built by
`analyze_directory_url`.  Both are initialized empty; the `try` block fails
at the import above before any entry is added (`except` resets the month map
and leaves the (month, day) map untouched), so whatever the day-pattern scan
(`scanFn`) would have produced is never used. -/
def analyze_date_maps
    (scanFn : Unit → List (String × (Nat × Nat)) × List (String × Nat)) :
    List (String × (Nat × Nat)) × List (String × Nat) :=
  match importFindCardsByDate with
  | .error _ => ([], [])
  | .ok _ => scanFn ()

/-- Model of `f"{n:02d}"`. -/
def pad2 (n : Nat) : String := if n < 10 then "0" ++ toString n else toString n

/-- First occurrences of the elements of `l`, in order (Python dict-key
insertion order when counting). -/
def firstOccs [BEq α] : List α → List α
  | [] => []
  | x :: t =>
    have : (t.filter (fun y => !(y == x))).length < (x :: t).length :=
      Nat.lt_succ_of_le (t.length_filter_le _)
    x :: firstOccs (t.filter (fun y => !(y == x)))
  termination_by l => l.length

/-- Model of `max(counts, key=counts.get)` over the multiset `l`: the first-seen key
with the (strictly) maximal count. -/
def dominantKey [BEq α] (l : List α) : Option α :=
  match firstOccs l with
  | [] => none
  | k :: ks => some (ks.foldl (fun best x => if l.count x > l.count best then x else best) k)

/-- The per-event date-resolution logic of `analyze_directory_url`
(lines 336–371): majority (month, day) from the card map, else a month/day
substring of the title, else majority month with unknown day, else fully
unknown — always under the fixed "2025年" label. -/
def resolve_event_date (mdMap : List (String × (Nat × Nat)))
    (mMap : List (String × Nat)) (title : String) (cards : List String) : String :=
  let mdPairs := cards.filterMap (fun u => mdMap.lookup u)
  match dominantKey mdPairs with
  | some (mm, dd) => "2025年" ++ pad2 mm ++ "月" ++ pad2 dd ++ "日"
  | none =>
    match scanMonthDay title.data with
    | some (m, d) => "2025年" ++ pad2 m ++ "月" ++ pad2 d ++ "日"
    | none =>
      let months := cards.filterMap (fun u => mMap.lookup u)
      match dominantKey months with
      | some m => "2025年" ++ pad2 m ++ "月??日"
      | none => "2025年??月??日"

/-! ## Multithreaded batch fetcher (`multithreaded_card_fetcher.MultiThreadedCardFetcher`)

The per-card network fetch and HTML extraction are abstracted by an oracle
assigning each card URL its outcome; the thread pool's nondeterministic
completion order is an arbitrary permutation of the submission list. -/

/-- What happens when one worker unit processes a card URL: the fetch/parse
raises, or the page is a profile/non-card page (silently skipped), or a full
record is extracted. -/
inductive CardOutcome
  | raises (msg : String)
  | skipped
  | ok (row : Row)

/-- Does the outcome deliver a record? -/
def CardOutcome.isOk : CardOutcome → Bool
  | .ok _ => true
  | _ => false

/-- Did the unit raise (and get caught)? -/
def CardOutcome.isRaises : CardOutcome → Bool
  | .raises _ => true
  | _ => false

/-- Model of `get_card_full_details(card_url, event_name)`: any exception is caught at
the unit level and yields `None`; profile pages and pages without a bracketed
name yield `None`; otherwise the built row, stamped with the event name. -/
def get_card_full_details (oracle : String → CardOutcome)
    (card_url event_name : String) : Option Row :=
  match oracle card_url with
  | .raises _ => none
  | .skipped => none
  | .ok row => some (fun k => if k = "活动名称" then event_name else row k)

/-- The fetcher's shared statistics counters. -/
structure FetchStats where
  total : Nat
  succ : Nat
  failed : Nat

/-- One iteration of the result-collection loop of
`fetch_card_full_details_batch`: a delivered record is appended and counted
as a success, a `None` increments the failure counter. -/
def batchStep (oracle : String → CardOutcome)
    (acc : List Row × Nat × Nat) (p : String × String) : List Row × Nat × Nat :=
  match get_card_full_details oracle p.1 p.2 with
  | some r => (acc.1 ++ [r], acc.2.1 + 1, acc.2.2)
  | none => (acc.1, acc.2.1, acc.2.2 + 1)

/-- Model of `fetch_card_full_details_batch(card_info_list)`: results are collected in
completion order `order` (any permutation of the submitted list); the stats
are reset to `total = len(card_info_list)` up front. -/
def fetch_card_full_details_batch (oracle : String → CardOutcome)
    (card_info_list : List (String × String)) (order : List (String × String)) :
    List Row × FetchStats :=
  let (results, s, f) := order.foldl (batchStep oracle) ([], 0, 0)
  (results, ⟨card_info_list.length, s, f⟩)

/-- A simulated batch of ten card URLs of which three raise fetch errors. -/
def exBatchInputs : List (String × String) :=
  [("u1", "e"), ("u2", "e"), ("u3", "e"), ("u4", "e"), ("u5", "e"),
   ("u6", "e"), ("u7", "e"), ("u8", "e"), ("u9", "e"), ("u10", "e")]

/-- The outcome oracle for the simulated batch: `u1`..`u3` raise, the rest
extract successfully. -/
def exBatchOracle : String → CardOutcome := fun u =>
  if u = "u1" || u = "u2" || u = "u3" then CardOutcome.raises "simulated fetch error"
  else CardOutcome.ok (rowOf [])

/-! ## Session cache (`redis_utils.RedisCache`)

The Redis server is modelled as an association list from keys to
(JSON text, expiry instant) pairs, newest binding first; `connected` covers
both "client constructed" and "liveness ping succeeds".  Event lists are
serialized with `json.dumps(..., ensure_ascii=False)` and parsed back by
`json.loads`, modelled by a canonical-format printer/parser pair below. -/

/-- One discovered event as produced by `analyze_directory_url` and cached by
the web layer (dict keys in insertion order: id, title, date, url,
description, cards). -/
structure EventData where
  id : String
  title : String
  date : String
  url : String
  description : String
  cards : List String
deriving DecidableEq, Repr

/-- JSON escaping of one character (`ensure_ascii=False`; control characters
other than `\n`, `\t`, `\r` would use `\uXXXX` escapes and are excluded by
`goodStr`). -/
def encodeJChar (c : Char) : List Char :=
  if c = '"' then ['\\', '"']
  else if c = '\\' then ['\\', '\\']
  else if c = '\n' then ['\\', 'n']
  else if c = '\t' then ['\\', 't']
  else if c = '\r' then ['\\', 'r']
  else [c]

/-- Characters whose JSON encoding the model covers. -/
def goodChar (c : Char) : Bool := 32 ≤ c.val || c = '\n' || c = '\t' || c = '\r'

/-- Strings whose JSON encoding the model covers. -/
def goodStr (s : String) : Bool := s.data.all goodChar

/-- All strings of an event are covered. -/
def goodEvent (e : EventData) : Bool :=
  goodStr e.id && goodStr e.title && goodStr e.date && goodStr e.url &&
    goodStr e.description && e.cards.all goodStr

/-- All events of a list are covered. -/
def goodEvents (es : List EventData) : Bool := es.all goodEvent

/-- JSON string literal. -/
def encodeJString (s : String) : List Char :=
  '"' :: (s.data.map encodeJChar).flatten ++ ['"']

/-- Model of `", "`-separated continuation items of a JSON array. -/
def encodeRestItems (enc : α → List Char) (l : List α) : List Char :=
  (l.map (fun x => ',' :: ' ' :: enc x)).flatten

/-- JSON array with `json.dumps`'s default `", "` item separator. -/
def encodeListJ (enc : α → List Char) (l : List α) : List Char :=
  '[' :: (match l with
          | [] => []
          | x :: xs => enc x ++ encodeRestItems enc xs) ++ [']']

/-- JSON object for one event, with `json.dumps`'s default `", "`/`": "`
separators and keys in dict insertion order. -/
def encodeEvent (e : EventData) : List Char :=
  ("\x7b\"id\": ").data ++ encodeJString e.id ++
  (", \"title\": ").data ++ encodeJString e.title ++
  (", \"date\": ").data ++ encodeJString e.date ++
  (", \"url\": ").data ++ encodeJString e.url ++
  (", \"description\": ").data ++ encodeJString e.description ++
  (", \"cards\": ").data ++ encodeListJ encodeJString e.cards ++ ("\x7d").data

/-- Model of `json.dumps(events_data, ensure_ascii=False)`. -/
def encodeEvents (es : List EventData) : String := ⟨encodeListJ encodeEvent es⟩

/-- Consume an exact literal. -/
def parseLit (lit s : List Char) : Option (List Char) :=
  if lit.isPrefixOf s then some (s.drop lit.length) else none

/-- Parse the body of a JSON string literal (after the opening quote) up to
and including the closing quote, decoding the escapes `encodeJChar` emits. -/
def parseJStringBody : List Char → Option (List Char × List Char)
  | [] => none
  | c :: t =>
    if c = '"' then some ([], t)
    else if c = '\\' then
      match t with
      | [] => none
      | e :: t2 =>
        if e = '"' then (parseJStringBody t2).map (fun p => ('"' :: p.1, p.2))
        else if e = '\\' then (parseJStringBody t2).map (fun p => ('\\' :: p.1, p.2))
        else if e = 'n' then (parseJStringBody t2).map (fun p => ('\n' :: p.1, p.2))
        else if e = 't' then (parseJStringBody t2).map (fun p => ('\t' :: p.1, p.2))
        else if e = 'r' then (parseJStringBody t2).map (fun p => ('\r' :: p.1, p.2))
        else none
    else (parseJStringBody t).map (fun p => (c :: p.1, p.2))

/-- Parse a JSON string literal. -/
def parseJString (s : List Char) : Option (String × List Char) :=
  match s with
  | c :: t => if c = '"' then (parseJStringBody t).map (fun p => (⟨p.1⟩, p.2)) else none
  | [] => none

/-- Parse the items after the first one of a JSON string array (fuelled by the
maximal number of remaining items). -/
def parseStrListRest (fuel : Nat) (acc : List String) (s : List Char) :
    Option (List String × List Char) :=
  match s with
  | c :: rest =>
    if c = ']' then some (acc.reverse, rest)
    else if c = ',' then
      match rest with
      | d :: rest2 =>
        if d = ' ' then
          match fuel with
          | 0 => none
          | fuel' + 1 =>
            match parseJString rest2 with
            | some (x, r1) => parseStrListRest fuel' (x :: acc) r1
            | none => none
        else none
      | [] => none
    else none
  | [] => none

/-- Parse a JSON array of strings. -/
def parseStrList (s : List Char) : Option (List String × List Char) :=
  match s with
  | c :: rest =>
    if c = '[' then
      match rest with
      | d :: rest2 =>
        if d = ']' then some ([], rest2)
        else
          match parseJString rest with
          | some (x, r1) => parseStrListRest r1.length [x] r1
          | none => none
      | [] => none
    else none
  | [] => none

/-- Parse one event object of the canonical encoding. -/
def parseEvent (s : List Char) : Option (EventData × List Char) := do
  let r0 ← parseLit ("\x7b\"id\": ").data s
  let (idv, r1) ← parseJString r0
  let r2 ← parseLit (", \"title\": ").data r1
  let (titlev, r3) ← parseJString r2
  let r4 ← parseLit (", \"date\": ").data r3
  let (datev, r5) ← parseJString r4
  let r6 ← parseLit (", \"url\": ").data r5
  let (urlv, r7) ← parseJString r6
  let r8 ← parseLit (", \"description\": ").data r7
  let (descv, r9) ← parseJString r8
  let r10 ← parseLit (", \"cards\": ").data r9
  let (cardsv, r11) ← parseStrList r10
  let r12 ← parseLit ("\x7d").data r11
  pure (⟨idv, titlev, datev, urlv, descv, cardsv⟩, r12)

/-- Parse the items after the first one of the top-level event array. -/
def parseEventsRest (fuel : Nat) (acc : List EventData) (s : List Char) :
    Option (List EventData × List Char) :=
  match s with
  | c :: rest =>
    if c = ']' then some (acc.reverse, rest)
    else if c = ',' then
      match rest with
      | d :: rest2 =>
        if d = ' ' then
          match fuel with
          | 0 => none
          | fuel' + 1 =>
            match parseEvent rest2 with
            | some (x, r1) => parseEventsRest fuel' (x :: acc) r1
            | none => none
        else none
      | [] => none
    else none
  | [] => none

/-- Parse the top-level JSON array of events: either an event follows the
opening bracket, or the array closes immediately. -/
def parseEvents (s : List Char) : Option (List EventData × List Char) :=
  match s with
  | c :: rest =>
    if c = '[' then
      match parseEvent rest with
      | some (x, r1) => parseEventsRest r1.length [x] r1
      | none =>
        match rest with
        | d :: rest2 => if d = ']' then some ([], rest2) else none
        | [] => none
    else none
  | [] => none

/-- Model of `json.loads` of a cached value: the whole text must parse. -/
def decodeEvents (s : String) : Option (List EventData) :=
  match parseEvents s.data with
  | some (es, []) => some es
  | _ => none

/-- The Redis server state: reachability plus stored keys, each with its
JSON text and absolute expiry instant; newest binding shadows older ones. -/
structure RedisState where
  connected : Bool
  store : List (String × String × Nat)

/-- Raw key lookup (ignoring expiry). -/
def storeLookup (store : List (String × String × Nat)) (k : String) :
    Option (String × Nat) := store.lookup k

/-- Model of `GET` honouring expiry: an entry is live while `now < expiresAt`. -/
def storeLive (store : List (String × String × Nat)) (now : Nat) (k : String) :
    Option String :=
  match store.lookup k with
  | some (v, e) => if now < e then some v else none
  | none => none

/-- Model of `RedisCache.save_events_data(session_id, events_data, expire_seconds)`:
a no-op returning `False` when not connected; otherwise
`SETEX events:<sid> expire json.dumps(events)` and `True`. -/
def save_events_data (st : RedisState) (now : Nat) (session_id : String)
    (events_data : List EventData) (expire_seconds : Nat) :
    Bool × RedisState :=
  if !st.connected then (false, st)
  else
    (true, { st with
             store := ("events:" ++ session_id, encodeEvents events_data,
                       now + expire_seconds) :: st.store })

/-- Model of `RedisCache.get_events_data(session_id)`: `None` when not connected, the
key is absent or expired, or the stored text fails to parse. -/
def get_events_data (st : RedisState) (now : Nat) (session_id : String) :
    Option (List EventData) :=
  if !st.connected then none
  else
    match storeLive st.store now ("events:" ++ session_id) with
    | some txt => decodeEvents txt
    | none => none

/-- A concrete discovered-event list used to witness the cache round trip. -/
def demoEvents : List EventData :=
  [⟨"1", "04月25日　スカウト！DI:Verse", "2025年04月25日",
    "https://gamerch.com/ensemble-star-music/123456", "包含 1 张卡面",
    ["https://gamerch.com/ensemble-star-music/123456"]⟩]

/-- A freshly started task (`create` + `start`), before its worker runs. -/
def freshRunningTask : CrawlTask := startTask mkTask

/-- A task that has already completed, with its result file recorded. -/
def doneTask : CrawlTask := ⟨.completed, false, some "out.xlsx", none, []⟩

/-- A task that has already been cancelled. -/
def cancelledTask : CrawlTask := ⟨.cancelled, true, none, none, []⟩

/-- Two already-mapped rows whose activity names are out of order. -/
def exportRows : List (List (String × String)) :=
  [[("活动名称", "b"), ("卡面名称", "x")], [("活动名称", "a"), ("卡面名称", "y")]]

/-- The two columns relevant to the claimed sort. -/
def exportCols : List String := ["活动名称", "卡面名称"]

/-- A ☆5 record whose 無凸MAX値 Da cell is absent while 完凸MAX値 Da is
present. -/
def fallbackRow : Row := rowOf [("レアリティ", "☆5"), ("完凸MAX値 Da", "9999")]

/-- A concrete ☆5 record with both max stats present. -/
def star5Row : Row :=
  rowOf [("レアリティ", "☆5"), ("無凸MAX値 Da", "100"), ("完凸MAX値 Da", "200")]

/-- A concrete ☆4 record. -/
def star4Row : Row := rowOf [("レアリティ", "☆4"), ("無凸MAX値 Da", "100")]

/-! ## Helper lemmas -/

theorem isPrefixOf_eq_iff (l1 l2 : List Char) : l1.isPrefixOf l2 = true ↔ l1 <+: l2 :=
  List.isPrefixOf_iff_prefix

theorem findSubIdx_isSome_iff (sep : List Char) (s : List Char) :
    (findSubIdx sep s).isSome = true ↔ sep <:+: s := by
  induction s with
  | nil =>
    simp only [findSubIdx]
    by_cases h : sep.isPrefixOf ([] : List Char) = true
    · rw [if_pos h]
      simp only [Option.isSome_some, true_iff]
      exact ((isPrefixOf_eq_iff sep []).mp h).isInfix
    · rw [if_neg h]
      simp only [Option.isSome_none, Bool.false_eq_true, false_iff]
      intro hc
      rw [List.infix_nil] at hc
      subst hc
      simp [List.isPrefixOf] at h
  | cons c t ih =>
    simp only [findSubIdx]
    by_cases h : sep.isPrefixOf (c :: t) = true
    · rw [if_pos h]
      simp only [Option.isSome_some, true_iff]
      exact ((isPrefixOf_eq_iff sep (c :: t)).mp h).isInfix
    · rw [if_neg h]
      have hmap : (Option.map (fun x => x + 1) (findSubIdx sep t)).isSome
          = (findSubIdx sep t).isSome := by
        cases findSubIdx sep t <;> rfl
      rw [hmap, ih, List.infix_cons_iff]
      constructor
      · exact Or.inr
      · rintro (hp | hi)
        · exact absurd ((isPrefixOf_eq_iff sep (c :: t)).mpr hp) h
        · exact hi

theorem stripL_isInfix (l : List Char) : stripL l <:+: l := by
  have h1 : l.dropWhile pyIsSpace <:+ l := List.dropWhile_suffix pyIsSpace
  have h2 : (l.dropWhile pyIsSpace).reverse.dropWhile pyIsSpace <:+
      (l.dropWhile pyIsSpace).reverse := List.dropWhile_suffix pyIsSpace
  have h3 : stripL l <+: l.dropWhile pyIsSpace := by
    unfold stripL
    have hr := List.reverse_prefix.mpr h2
    simpa using hr
  exact h3.isInfix.trans h1.isInfix

theorem containsSub_of_strip {u sub : String}
    (h : containsSub (pyStrip u) sub = true) : containsSub u sub = true := by
  unfold containsSub at *
  rw [findSubIdx_isSome_iff] at *
  exact h.trans (stripL_isInfix u.data)

theorem lookup_map_mk_self (f : String → String) :
    ∀ (cols : List String) (c : String), c ∈ cols →
      (cols.map (fun x => (x, f x))).lookup c = some (f c) := by
  intro cols
  induction cols with
  | nil => intro c hc; simp at hc
  | cons x t ih =>
    intro c hc
    by_cases hx : c = x
    · subst hx; simp [List.lookup]
    · have hbeq : (c == x) = false := by simp [hx]
      simp only [List.map_cons, List.lookup, hbeq]
      exact ih c ((List.mem_cons.mp hc).resolve_left hx)

theorem lookup_map_mk_none (f : String → String) :
    ∀ (cols : List String) (c : String), c ∉ cols →
      (cols.map (fun x => (x, f x))).lookup c = none := by
  intro cols
  induction cols with
  | nil => intro c _; simp
  | cons x t ih =>
    intro c hc
    simp only [List.mem_cons, not_or] at hc
    have hbeq : (c == x) = false := by simp [hc.1]
    simp only [List.map_cons, List.lookup, hbeq]
    exact ih c hc.2

/-! ## Claim theorems -/

/-- C6: the target-date predicate holds for a day exactly when it is the
10th/14th/15th/25th of any month, or one of the last two calendar days of
the month computed from the actual days-in-month of the code's fixed target
year 2025 (non-leap, so for February those are 27 and 28); in particular
month 4 admits days 29/30 but not 28, month 1 admits 30/31 but not 29, and
the base days qualify in every month.  The string-driven predicate of
`extract_card_links.py` agrees on every zero-padded in-range date. -/
theorem c6_target_date_policy :
    (∀ day month, 1 ≤ month → month ≤ 12 →
      (is_target_date day month = true ↔ target_date_policy 2025 day month = true)) ∧
    (∀ m ∈ Finset.Icc 1 12, ∀ d ∈ Finset.Icc 1 31,
      is_target_date_str (pad2 m ++ "月" ++ pad2 d ++ "日") =
        some (target_date_policy 2025 d m)) ∧
    (is_target_date 29 4 = true ∧ is_target_date 30 4 = true ∧
     is_target_date 28 4 = false ∧ is_target_date 30 1 = true ∧
     is_target_date 31 1 = true ∧ is_target_date 29 1 = false ∧
     ∀ month, is_target_date 10 month = true ∧ is_target_date 14 month = true ∧
       is_target_date 15 month = true ∧ is_target_date 25 month = true) := by
  refine ⟨?_, by decide, by decide, by decide, by decide, by decide, by decide, by decide, ?_⟩
  · intro day month h1 h2
    interval_cases month <;>
      simp [is_target_date, target_date_policy, monthrangeDays] <;> omega
  · intro month
    refine ⟨?_, ?_, ?_, ?_⟩ <;> simp [is_target_date]

/-- C6 witness: the characterization applied at month 4, day 29 (an
end-of-month target day), in both the integer and string variants. -/
theorem c6_target_date_policy_witness :
    (is_target_date 29 4 = true ↔ target_date_policy 2025 29 4 = true) ∧
    is_target_date_str (pad2 4 ++ "月" ++ pad2 29 ++ "日") =
      some (target_date_policy 2025 29 4) :=
  ⟨c6_target_date_policy.1 29 4 (by decide) (by decide),
   c6_target_date_policy.2.1 4 (by decide) 29 (by decide)⟩

/-- C1: `crawl_es2` has no module-level `export_cards_to_excel`, so for every
task whose worker reaches the export step uncancelled, the export-step
imports fail, and the worker transitions the task to `failed` with
`error_message` set and `result_file` still `None` — no task completes. -/
theorem c1_crawl_task_always_fails (t : CrawlTask)
    (hc : t.cancelled = false) (hr : t.result_file = none) :
    crawl_es2_module_names.contains "export_cards_to_excel" = false ∧
    (run_crawl t generate_excel_outcome).status = TaskStatus.failed ∧
    (run_crawl t generate_excel_outcome).error_message.isSome = true ∧
    (run_crawl t generate_excel_outcome).result_file = none := by
  have hgen : generate_excel_outcome =
      Except.error "cannot import name 'export_cards_to_excel' from 'crawl_es2'" := rfl
  refine ⟨by decide, ?_, ?_, ?_⟩ <;>
    simp [run_crawl, worker_finish, hgen, hc, hr]

/-- C1 witness: the failure transition on a concrete freshly started task. -/
theorem c1_crawl_task_always_fails_witness :
    crawl_es2_module_names.contains "export_cards_to_excel" = false ∧
    (run_crawl freshRunningTask generate_excel_outcome).status = TaskStatus.failed ∧
    (run_crawl freshRunningTask generate_excel_outcome).error_message.isSome = true ∧
    (run_crawl freshRunningTask generate_excel_outcome).result_file = none :=
  c1_crawl_task_always_fails freshRunningTask rfl rfl

/-- C2 counterexample: a later cancel request changes a completed task's
status to cancelled, so terminal statuses are not sinks. -/
theorem c2_terminal_not_sink_cex :
    doneTask.status = TaskStatus.completed ∧
    (applyOp TaskOp.cancel doneTask).status = TaskStatus.cancelled ∧
    TaskStatus.cancelled ≠ TaskStatus.completed := by decide

/-- C2 amended: the terminal set {completed, failed, cancelled} is closed
under every subsequent operation (a terminal task never returns to
pending/running), but individual terminal statuses are not sinks: `cancel`
unconditionally sets status to cancelled, the worker's exception handler
unconditionally sets it to failed, and only the worker's success path
respects an earlier cancellation. -/
theorem c2_terminal_set_closed :
    (∀ (t : CrawlTask) (op : TaskOp),
      t.status.isTerminal = true → ((applyOp op t).status.isTerminal = true)) ∧
    (∀ t : CrawlTask, (applyOp TaskOp.cancel t).status = TaskStatus.cancelled) ∧
    (∀ (t : CrawlTask) (e : String),
      (applyOp (TaskOp.finish (Except.error e)) t).status = TaskStatus.failed) ∧
    (∀ (t : CrawlTask) (f : String), t.cancelled = true →
      (applyOp (TaskOp.finish (Except.ok f)) t).status = t.status) := by
  refine ⟨?_, fun t => rfl, fun t e => rfl, ?_⟩
  · intro t op h
    cases op with
    | cancel => simp [applyOp, cancelTask, TaskStatus.isTerminal]
    | finish g =>
      cases g with
      | error e => simp [applyOp, worker_finish, TaskStatus.isTerminal]
      | ok f =>
        simp only [applyOp, worker_finish]
        by_cases hcan : t.cancelled = true
        · simpa [hcan] using h
        · simp [hcan, TaskStatus.isTerminal]
    | runFull g =>
      simp only [applyOp, run_crawl]
      by_cases hcan : t.cancelled = true
      · simpa [hcan] using h
      · cases g with
        | error e => simp [hcan, worker_finish, TaskStatus.isTerminal]
        | ok f => simp [hcan, worker_finish, TaskStatus.isTerminal]
  · intro t f h
    simp [applyOp, worker_finish, h]

/-- C2 amended witness: closure and the cancelled-stays-cancelled guard at
concrete tasks. -/
theorem c2_terminal_set_closed_witness :
    doneTask.status.isTerminal = true ∧
    (applyOp (TaskOp.finish (Except.ok "f.xlsx")) doneTask).status.isTerminal = true ∧
    (applyOp (TaskOp.finish (Except.ok "f.xlsx")) cancelledTask).status = cancelledTask.status :=
  ⟨by decide,
   c2_terminal_set_closed.1 doneTask (TaskOp.finish (Except.ok "f.xlsx")) (by decide),
   c2_terminal_set_closed.2.2.2 cancelledTask "f.xlsx" rfl⟩

/-- C4 counterexample: `write_excel_rows` keeps the caller's row order, so
the written rows are not sorted ascending by [activity name, card name]. -/
theorem c4_export_unsorted_cex :
    (write_excel_rows exportRows exportCols).map (fun r => dictGetD r "活动名称")
      = ["b", "a"] ∧
    spec_sortedByActivityCard (write_excel_rows exportRows exportCols) = false := by
  decide

/-- C4 amended: the exporter writes one normalized row per input row, in the
caller-supplied order, each row carrying exactly the template columns with
missing values as empty strings; no sorting (and no 未知 sentinel) is
applied. -/
theorem c4_write_excel_rows_order :
    ∀ (rows : List (List (String × String))) (cols : List String),
      (write_excel_rows rows cols).length = rows.length ∧
      (∀ r ∈ write_excel_rows rows cols, r.map Prod.fst = cols) ∧
      write_excel_rows rows cols =
        rows.map (fun r => cols.map (fun col => (col, dictGetD r col))) := by
  intro rows cols
  refine ⟨by simp [write_excel_rows], ?_, rfl⟩
  intro r hr
  simp only [write_excel_rows, List.mem_map] at hr
  obtain ⟨r0, _, rfl⟩ := hr
  rw [List.map_map]
  have hid : (Prod.fst ∘ fun col => (col, dictGetD r0 col)) = id := funext fun c => rfl
  rw [hid, List.map_id]

/-- C4 amended witness: the order-preservation facts at the concrete rows. -/
theorem c4_write_excel_rows_order_witness :
    (write_excel_rows exportRows exportCols).length = exportRows.length ∧
    ([("活动名称", "b"), ("卡面名称", "x")] : List (String × String)).map Prod.fst
      = exportCols := by
  have h := c4_write_excel_rows_order exportRows exportCols
  exact ⟨h.1, h.2.1 _ (by decide)⟩

theorem mappedGet_not_template (row : Row) (ui : Bool) (c : String)
    (h : c ∉ templateKeys) : mappedGet row ui c = "" := by
  simp only [templateKeys, List.mem_cons, not_or, List.not_mem_nil, not_false_iff,
    and_true] at h
  obtain ⟨h1, h2, h3, h4, h5, h6, h7, h8, h9, h10, h11, h12, h13, h14, h15, h16, h17, h18⟩ := h
  simp [mappedGet, h1, h2, h3, h4, h5, h6, h7, h8, h9, h10, h11, h12, h13, h14, h15,
    h16, h17, h18]

/-- C7: mapping any record against an ordered column list yields a row whose
key sequence is exactly that column list, whose value at each column is the
mapped value (so mapped fields without a column are dropped), and whose value
at any column with no mapped source is the empty string. -/
theorem c7_column_fidelity (row : Row) (cols : List String) (ui : Bool)
    (hnd : cols.Nodup) :
    ((map_to_template row cols ui).map Prod.fst = cols) ∧
    (∀ c ∈ cols, (map_to_template row cols ui).lookup c = some (mappedGet row ui c)) ∧
    (∀ c, c ∉ cols → (map_to_template row cols ui).lookup c = none) ∧
    (∀ c ∈ cols, c ∉ templateKeys → (map_to_template row cols ui).lookup c = some "") := by
  have _ := hnd
  refine ⟨?_, ?_, ?_, ?_⟩
  · rw [map_to_template, List.map_map]
    have hid : (Prod.fst ∘ fun col => (col, mappedGet row ui col)) = id :=
      funext fun c => rfl
    rw [hid, List.map_id]
  · intro c hc; exact lookup_map_mk_self _ cols c hc
  · intro c hc; exact lookup_map_mk_none _ cols c hc
  · intro c hc hk
    show List.lookup c (cols.map fun col => (col, mappedGet row ui col)) = some ""
    rw [lookup_map_mk_self _ cols c hc, mappedGet_not_template row ui c hk]

/-- C7 witness: column fidelity at a concrete record and a column list with a
column that has no mapped source. -/
theorem c7_column_fidelity_witness :
    ((map_to_template (rowOf []) ["DA", "自定义列"] true).map Prod.fst
      = ["DA", "自定义列"]) ∧
    (map_to_template (rowOf []) ["DA", "自定义列"] true).lookup "自定义列" = some "" := by
  have h := c7_column_fidelity (rowOf []) ["DA", "自定义列"] true (by decide)
  exact ⟨h.1, h.2.2.2 "自定义列" (by decide) (by decide)⟩

/-- C3 counterexample: for this ☆5 record the 一卡 row's DA does not equal
the record's (empty) no-break-max stat — it falls back to the full-break-max
value 9999. -/
theorem c3_initial_row_fallback_cex :
    pyStrip (fallbackRow "レアリティ") = "☆5" ∧
    fallbackRow "無凸MAX値 Da" = "" ∧
    fallbackRow "完凸MAX値 Da" = "9999" ∧
    mappedGet fallbackRow true "DA" = "9999" ∧
    (expandRow fallbackRow templateKeys).length = 2 ∧
    ((expandRow fallbackRow templateKeys).headD []).lookup "DA" = some "9999" := by
  decide

/-- C3 amended: a ☆5 record (with no conflicting star marker) expands to
exactly two rows — a 一卡 row whose DA/VO/PF/综合值 prefer the no-break-max
value, falling back to full-break-max then initial, and a 满破 row preferring
full-break-max then no-break-max then initial; a record of rarity ☆4 or ☆3
(with no ☆5 marker in its name) yields exactly one row with those four cells
empty. -/
theorem c3_rarity_row_expansion (row : Row) (cols : List String) :
    (pyStrip (row "レアリティ") = "☆5" → is3StarOf row = false → is4StarOf row = false →
      (expandRow row cols).length = 2 ∧
      expandRow row cols = [map_to_template row cols true, map_to_template row cols false] ∧
      mappedGet row true "Unnamed: 4" = "一卡" ∧
      mappedGet row false "Unnamed: 4" = "满破" ∧
      mappedGet row true "DA" =
        pyOr (row "無凸MAX値 Da") (pyOr (row "完凸MAX値 Da") (row "初期値 Da")) ∧
      mappedGet row true "VO" =
        pyOr (row "無凸MAX値 Vo") (pyOr (row "完凸MAX値 Vo") (row "初期値 Vo")) ∧
      mappedGet row true "PF" =
        pyOr (row "無凸MAX値 Pf") (pyOr (row "完凸MAX値 Pf") (row "初期値 Pf")) ∧
      mappedGet row true "综合值" =
        pyOr (row "無凸MAX値 総合値") (pyOr (row "完凸MAX値 総合値") (row "初期値 総合値")) ∧
      mappedGet row false "DA" =
        pyOr (row "完凸MAX値 Da") (pyOr (row "無凸MAX値 Da") (row "初期値 Da")) ∧
      mappedGet row false "VO" =
        pyOr (row "完凸MAX値 Vo") (pyOr (row "無凸MAX値 Vo") (row "初期値 Vo")) ∧
      mappedGet row false "PF" =
        pyOr (row "完凸MAX値 Pf") (pyOr (row "無凸MAX値 Pf") (row "初期値 Pf")) ∧
      mappedGet row false "综合值" =
        pyOr (row "完凸MAX値 総合値") (pyOr (row "無凸MAX値 総合値") (row "初期値 総合値"))) ∧
    ((pyStrip (row "レアリティ") = "☆4" ∨ pyStrip (row "レアリティ") = "☆3") →
      is5StarOf row = false →
      (expandRow row cols).length = 1 ∧
      mappedGet row false "DA" = "" ∧ mappedGet row false "VO" = "" ∧
      mappedGet row false "PF" = "" ∧ mappedGet row false "综合值" = "") := by
  constructor
  · intro hr5 h3 h4
    have h5 : is5StarOf row = true := by simp [is5StarOf, hr5]
    refine ⟨by simp [expandRow, h5], by simp [expandRow, h5], rfl, ?_, ?_, ?_, ?_, ?_,
      ?_, ?_, ?_, ?_⟩
    · simp [mappedGet, statusIndicator, h5]
    all_goals simp [mappedGet, pick_stat, h3, h4]
  · intro hr h5f
    have h34 : (is3StarOf row || is4StarOf row) = true := by
      rcases hr with h | h
      · simp [is4StarOf, h]
      · simp [is3StarOf, h]
    refine ⟨by simp [expandRow, h5f], ?_, ?_, ?_, ?_⟩ <;>
      simp [mappedGet, pick_stat, h34]

/-- C3 amended witness: the expansion applied to the two concrete records. -/
theorem c3_rarity_row_expansion_witness :
    (expandRow star5Row templateKeys).length = 2 ∧
    mappedGet star5Row true "DA" = "100" ∧
    mappedGet star5Row false "DA" = "200" ∧
    (expandRow star4Row templateKeys).length = 1 ∧
    mappedGet star4Row false "DA" = "" := by
  obtain ⟨hlen, -, -, -, hDA1, -, -, -, hDA2, -, -, -⟩ :=
    (c3_rarity_row_expansion star5Row templateKeys).1 (by decide) (by decide) (by decide)
  obtain ⟨hlen4, hDA4, -, -, -⟩ :=
    (c3_rarity_row_expansion star4Row templateKeys).2 (Or.inl (by decide)) (by decide)
  exact ⟨hlen, hDA1.trans (by decide), hDA2.trans (by decide), hlen4, hDA4⟩

/-- C8: the three validation behaviours of the HTTP API — an analyze URL
missing either marker is rejected with 400/success:false, an empty events
list is rejected with 400/success:false, and an unknown task id yields 404. -/
theorem c8_api_validation :
    (∀ (α : Type) (url : String) (analyzeFn : String → Bool × List α × String)
       (saveFn : List α → Option String),
      ¬(containsSub url "gamerch.com" = true ∧ containsSub url "ensemble-star-music" = true) →
      analyze_route url analyzeFn saveFn = (400, false)) ∧
    (∀ (α : Type) (events : List α) (newId : String)
       (registry : List (String × CrawlTask)),
      events = [] → (start_crawl_route events newId registry).1 = (400, false)) ∧
    (∀ (registry : List (String × CrawlTask)) (task_id : String),
      registry.lookup task_id = none → get_progress_route registry task_id = (404, false)) := by
  refine ⟨?_, ?_, ?_⟩
  · intro α url analyzeFn saveFn h
    have hs : containsSub (pyStrip url) "gamerch.com" = false ∨
        containsSub (pyStrip url) "ensemble-star-music" = false := by
      rcases not_and_or.mp h with hnc | hnc
      · left
        cases hcs : containsSub (pyStrip url) "gamerch.com"
        · rfl
        · exact absurd (containsSub_of_strip hcs) hnc
      · right
        cases hcs : containsSub (pyStrip url) "ensemble-star-music"
        · rfl
        · exact absurd (containsSub_of_strip hcs) hnc
    by_cases h0 : pyStrip url = ""
    · simp [analyze_route, h0]
    · rcases hs with hs | hs <;> simp [analyze_route, h0, hs]
  · intro α events newId registry h
    subst h
    simp [start_crawl_route]
  · intro registry task_id h
    simp [get_progress_route, h]

/-- C8 witness: the three rejections at concrete requests. -/
theorem c8_api_validation_witness :
    analyze_route "http://example.com" (fun _ => (true, ([] : List Nat), ""))
      (fun _ => none) = (400, false) ∧
    (start_crawl_route ([] : List Nat) "id-1" []).1 = (400, false) ∧
    get_progress_route [] "missing-task" = (404, false) :=
  ⟨c8_api_validation.1 Nat "http://example.com" _ _ (by decide),
   c8_api_validation.2.1 Nat [] "id-1" [] rfl,
   c8_api_validation.2.2 [] "missing-task" rfl⟩

/-- C5: the date-map build of `analyze_directory_url` always fails — the
name it imports is not module-level in `crawl_es2` (it is nested inside
`extract_cards_from_directory`), so both card-URL date maps stay empty and
resolution priorities (1) and (3) can never produce a date: every event's
date comes from the title substring or is fully unknown. -/
theorem c5_date_maps_never_populated :
    crawl_es2_module_names.contains "find_cards_by_date_with_dynamic_event_names" = false ∧
    (∀ scanFn, analyze_date_maps scanFn = ([], [])) ∧
    (∀ (title : String) (cards : List String),
      resolve_event_date [] [] title cards =
        (match scanMonthDay title.data with
         | some (m, d) => "2025年" ++ pad2 m ++ "月" ++ pad2 d ++ "日"
         | none => "2025年??月??日")) := by
  refine ⟨by decide, ?_, ?_⟩
  · intro scanFn
    have himp : importFindCardsByDate = Except.error
        "cannot import name 'find_cards_by_date_with_dynamic_event_names' from 'crawl_es2'" :=
      rfl
    simp [analyze_date_maps, himp]
  · intro title cards
    have hmd : cards.filterMap
        (fun u => ([] : List (String × (Nat × Nat))).lookup u) = [] := by
      simp
    have hm : cards.filterMap (fun u => ([] : List (String × Nat)).lookup u) = [] := by
      simp
    simp only [resolve_event_date, hmd, hm, dominantKey, firstOccs]

theorem batch_foldl_results (oracle : String → CardOutcome) :
    ∀ (order : List (String × String)) (acc : List Row × Nat × Nat),
      (order.foldl (batchStep oracle) acc).1 =
        acc.1 ++ order.filterMap (fun p => get_card_full_details oracle p.1 p.2) := by
  intro order
  induction order with
  | nil => intro acc; simp
  | cons p t ih =>
    intro acc
    simp only [List.foldl_cons, List.filterMap_cons]
    cases hg : get_card_full_details oracle p.1 p.2 with
    | none => simp [batchStep, hg, ih]
    | some r => simp [batchStep, hg, ih]

theorem batch_foldl_succ (oracle : String → CardOutcome) :
    ∀ (order : List (String × String)) (acc : List Row × Nat × Nat),
      (order.foldl (batchStep oracle) acc).2.1 =
        acc.2.1 + order.countP (fun p => (get_card_full_details oracle p.1 p.2).isSome) := by
  intro order
  induction order with
  | nil => intro acc; simp
  | cons p t ih =>
    intro acc
    simp only [List.foldl_cons, List.countP_cons]
    cases hg : get_card_full_details oracle p.1 p.2 with
    | none => simp [batchStep, hg, ih]
    | some r => simp [batchStep, hg, ih]; omega

theorem batch_foldl_failed (oracle : String → CardOutcome) :
    ∀ (order : List (String × String)) (acc : List Row × Nat × Nat),
      (order.foldl (batchStep oracle) acc).2.2 =
        acc.2.2 + order.countP (fun p => (get_card_full_details oracle p.1 p.2).isNone) := by
  intro order
  induction order with
  | nil => intro acc; simp
  | cons p t ih =>
    intro acc
    simp only [List.foldl_cons, List.countP_cons]
    cases hg : get_card_full_details oracle p.1 p.2 with
    | none => simp [batchStep, hg, ih]; omega
    | some r => simp [batchStep, hg, ih]

theorem get_card_isSome_iff_isOk (oracle : String → CardOutcome) (p : String × String) :
    (get_card_full_details oracle p.1 p.2).isSome = (oracle p.1).isOk := by
  cases h : oracle p.1 <;> simp [get_card_full_details, h, CardOutcome.isOk]

/-- C9: for any batch whose cards each either raise during fetch/parse or
extract successfully (no silently skipped pages), and any completion order,
the batch fetcher returns exactly one record per non-failing card, counts
exactly the failing cards in its failure counter, keeps `total` as the
submitted count — and, being total, never raises. -/
theorem c9_batch_fetcher_resilience (oracle : String → CardOutcome)
    (inputs order : List (String × String))
    (hperm : order.Perm inputs)
    (hnoskip : ∀ p ∈ inputs, oracle p.1 ≠ CardOutcome.skipped) :
    ((fetch_card_full_details_batch oracle inputs order).1).length
      = inputs.countP (fun p => (oracle p.1).isOk) ∧
    (fetch_card_full_details_batch oracle inputs order).2.failed
      = inputs.countP (fun p => (oracle p.1).isRaises) ∧
    (fetch_card_full_details_batch oracle inputs order).2.succ
      = inputs.countP (fun p => (oracle p.1).isOk) ∧
    (fetch_card_full_details_batch oracle inputs order).2.total = inputs.length ∧
    ((fetch_card_full_details_batch oracle inputs order).1).Perm
      (inputs.filterMap (fun p => get_card_full_details oracle p.1 p.2)) := by
  have hres : (fetch_card_full_details_batch oracle inputs order).1 =
      order.filterMap (fun p => get_card_full_details oracle p.1 p.2) := by
    simp [fetch_card_full_details_batch, batch_foldl_results]
  have hsucc : (fetch_card_full_details_batch oracle inputs order).2.succ =
      order.countP (fun p => (get_card_full_details oracle p.1 p.2).isSome) := by
    simp [fetch_card_full_details_batch, batch_foldl_succ]
  have hfail : (fetch_card_full_details_batch oracle inputs order).2.failed =
      order.countP (fun p => (get_card_full_details oracle p.1 p.2).isNone) := by
    simp [fetch_card_full_details_batch, batch_foldl_failed]
  have hcount_ok : order.countP (fun p => (get_card_full_details oracle p.1 p.2).isSome)
      = inputs.countP (fun p => (oracle p.1).isOk) := by
    rw [hperm.countP_eq]
    exact List.countP_congr (fun p _ => by rw [get_card_isSome_iff_isOk oracle p])
  refine ⟨?_, ?_, ?_, rfl, ?_⟩
  · rw [hres, List.length_filterMap_eq_countP, hcount_ok]
  · rw [hfail, hperm.countP_eq]
    refine List.countP_congr ?_
    intro p hp
    have hns := hnoskip p hp
    cases h : oracle p.1 with
    | raises m => simp [get_card_full_details, h, CardOutcome.isRaises]
    | skipped => exact absurd h hns
    | ok r => simp [get_card_full_details, h, CardOutcome.isRaises]
  · rw [hsucc, hcount_ok]
  · rw [hres]
    exact hperm.filterMap _

/-- C9 witness: ten URLs of which three raise yield exactly seven records and
a failure counter of three. -/
theorem c9_batch_fetcher_resilience_witness :
    ((fetch_card_full_details_batch exBatchOracle exBatchInputs exBatchInputs).1).length = 7 ∧
    (fetch_card_full_details_batch exBatchOracle exBatchInputs exBatchInputs).2.failed = 3 := by
  have hns : ∀ p ∈ exBatchInputs, exBatchOracle p.1 ≠ CardOutcome.skipped := by
    intro p hp
    fin_cases hp <;> simp [exBatchOracle]
  have h := c9_batch_fetcher_resilience exBatchOracle exBatchInputs exBatchInputs
    (List.Perm.refl _) hns
  refine ⟨h.1.trans ?_, h.2.1.trans ?_⟩ <;> decide

/-! JSON round-trip lemmas for the session cache. -/

theorem parseJStringBody_roundtrip :
    ∀ (s : List Char), s.all goodChar = true →
      ∀ rest, parseJStringBody ((s.map encodeJChar).flatten ++ '"' :: rest) = some (s, rest) := by
  intro s
  induction s with
  | nil =>
    intro _ rest
    show parseJStringBody ([].flatten ++ '"' :: rest) = some ([], rest)
    rw [List.flatten_nil, List.nil_append]
    unfold parseJStringBody
    simp
  | cons c t ih =>
    intro hall rest
    rw [List.all_cons, Bool.and_eq_true] at hall
    have ht := hall.2
    simp only [List.map_cons, List.flatten_cons, List.append_assoc]
    by_cases h1 : c = '"'
    · subst h1
      show parseJStringBody (['\\', '"'] ++ _) = _
      unfold parseJStringBody
      simp [ih ht rest]
    · by_cases h2 : c = '\\'
      · subst h2
        show parseJStringBody (['\\', '\\'] ++ _) = _
        unfold parseJStringBody
        simp [ih ht rest]
      · by_cases h3 : c = '\n'
        · subst h3
          show parseJStringBody (['\\', 'n'] ++ _) = _
          unfold parseJStringBody
          simp [ih ht rest]
        · by_cases h4 : c = '\t'
          · subst h4
            show parseJStringBody (['\\', 't'] ++ _) = _
            unfold parseJStringBody
            simp [ih ht rest]
          · by_cases h5 : c = '\r'
            · subst h5
              show parseJStringBody (['\\', 'r'] ++ _) = _
              unfold parseJStringBody
              simp [ih ht rest]
            · have henc : encodeJChar c = [c] := by
                simp [encodeJChar, h1, h2, h3, h4, h5]
              rw [henc]
              show parseJStringBody (c :: _) = _
              unfold parseJStringBody
              rw [if_neg h1, if_neg h2]
              simp [ih ht rest]

theorem parseJString_roundtrip (s : String) (hs : goodStr s = true) (rest : List Char) :
    parseJString (encodeJString s ++ rest) = some (s, rest) := by
  show parseJString (('"' :: (s.data.map encodeJChar).flatten ++ ['"']) ++ rest) = some (s, rest)
  simp only [List.cons_append, List.append_assoc, List.singleton_append]
  unfold parseJString
  simp [parseJStringBody_roundtrip s.data hs rest]

theorem parseLit_roundtrip (lit rest : List Char) : parseLit lit (lit ++ rest) = some rest := by
  simp [parseLit, List.isPrefixOf_iff_prefix, List.prefix_append, List.drop_left]

theorem parseStrListRest_roundtrip :
    ∀ (xs : List String), (∀ x ∈ xs, goodStr x = true) →
      ∀ (fuel : Nat), xs.length ≤ fuel →
      ∀ (acc : List String) (rest : List Char),
        parseStrListRest fuel acc (encodeRestItems encodeJString xs ++ ']' :: rest) =
          some (acc.reverse ++ xs, rest) := by
  intro xs
  induction xs with
  | nil =>
    intro _ fuel _ acc rest
    rw [show encodeRestItems encodeJString ([] : List String) = [] from rfl, List.nil_append]
    unfold parseStrListRest
    simp
  | cons x t ih =>
    intro hgood fuel hf acc rest
    cases fuel with
    | zero => simp at hf
    | succ fuel' =>
      have hf' : t.length ≤ fuel' := by simp at hf; omega
      have hx : goodStr x = true := hgood x (List.mem_cons_self x t)
      have ht : ∀ y ∈ t, goodStr y = true := fun y hy => hgood y (List.mem_cons_of_mem x hy)
      show parseStrListRest (fuel' + 1) acc
        ((',' :: ' ' :: encodeJString x ++ encodeRestItems encodeJString t) ++ ']' :: rest) =
        some (acc.reverse ++ x :: t, rest)
      simp only [List.cons_append, List.append_assoc]
      unfold parseStrListRest
      simp only [List.cons_append]
      have hpj : parseJString (encodeJString x ++
          (encodeRestItems encodeJString t ++ ']' :: rest)) =
          some (x, encodeRestItems encodeJString t ++ ']' :: rest) :=
        parseJString_roundtrip x hx _
      simp only [hpj]
      rw [ih ht fuel' hf' (x :: acc) rest]
      simp

theorem encodeRestItems_length_ge (enc : α → List Char) :
    ∀ l : List α, l.length ≤ (encodeRestItems enc l).length := by
  intro l
  induction l with
  | nil => simp [encodeRestItems]
  | cons x t ih =>
    have hrw : encodeRestItems enc (x :: t) =
        ',' :: ' ' :: enc x ++ encodeRestItems enc t := rfl
    rw [hrw]
    simp only [List.length_cons, List.cons_append, List.length_append]
    omega

theorem parseStrList_roundtrip (xs : List String) (h : ∀ x ∈ xs, goodStr x = true)
    (rest : List Char) :
    parseStrList (encodeListJ encodeJString xs ++ rest) = some (xs, rest) := by
  cases xs with
  | nil =>
    show parseStrList (('[' :: [] ++ [']']) ++ rest) = some ([], rest)
    unfold parseStrList
    simp
  | cons x t =>
    have hx : goodStr x = true := h x (List.mem_cons_self x t)
    have ht : ∀ y ∈ t, goodStr y = true := fun y hy => h y (List.mem_cons_of_mem x hy)
    show parseStrList (('[' :: (encodeJString x ++ encodeRestItems encodeJString t) ++ [']'])
        ++ rest) = some (x :: t, rest)
    simp only [List.cons_append, List.append_assoc, List.singleton_append, List.nil_append]
    have hshape : encodeJString x ++ (encodeRestItems encodeJString t ++ ']' :: rest)
        = '"' :: ((x.data.map encodeJChar).flatten ++
            ('"' :: (encodeRestItems encodeJString t ++ ']' :: rest))) := by
      show ('"' :: (x.data.map encodeJChar).flatten ++ ['"']) ++ _ = _
      simp [List.append_assoc]
    have hpj : parseJString ('"' :: ((x.data.map encodeJChar).flatten ++
        ('"' :: (encodeRestItems encodeJString t ++ ']' :: rest)))) =
        some (x, encodeRestItems encodeJString t ++ ']' :: rest) := by
      rw [← hshape]
      exact parseJString_roundtrip x hx _
    have hlen : t.length ≤ (encodeRestItems encodeJString t ++ ']' :: rest).length := by
      simp only [List.length_append, List.length_cons]
      have := encodeRestItems_length_ge encodeJString t
      omega
    rw [hshape]
    unfold parseStrList
    simp only [hpj]
    have hrest := parseStrListRest_roundtrip t ht
      (encodeRestItems encodeJString t ++ ']' :: rest).length hlen [x] rest
    simpa using hrest

theorem goodEvent_fields (e : EventData) (he : goodEvent e = true) :
    goodStr e.id = true ∧ goodStr e.title = true ∧ goodStr e.date = true ∧
    goodStr e.url = true ∧ goodStr e.description = true ∧
    (∀ x ∈ e.cards, goodStr x = true) := by
  unfold goodEvent at he
  simp only [Bool.and_eq_true] at he
  refine ⟨he.1.1.1.1.1, he.1.1.1.1.2, he.1.1.1.2, he.1.1.2, he.1.2, ?_⟩
  intro x hx
  exact List.all_eq_true.mp he.2 x hx

theorem parseLit_nil (s : List Char) : parseLit [] s = some s := by
  simp [parseLit, List.isPrefixOf]

theorem parseLit_step (c : Char) (lit s : List Char) :
    parseLit (c :: lit) (c :: s) = parseLit lit s := by
  simp [parseLit, List.isPrefixOf]

set_option maxHeartbeats 1000000 in
theorem parseEvent_roundtrip (e : EventData) (he : goodEvent e = true) (rest : List Char) :
    parseEvent (encodeEvent e ++ rest) = some (e, rest) := by
  obtain ⟨hid, htitle, hdate, hurl, hdesc, hcards⟩ := goodEvent_fields e he
  unfold parseEvent encodeEvent
  simp [List.append_assoc, parseLit_step, parseLit_nil,
    parseJString_roundtrip e.id hid,
    parseJString_roundtrip e.title htitle, parseJString_roundtrip e.date hdate,
    parseJString_roundtrip e.url hurl, parseJString_roundtrip e.description hdesc,
    parseStrList_roundtrip e.cards hcards]

theorem parseEvent_right_bracket (rest : List Char) : parseEvent (']' :: rest) = none := by
  have hpre : parseLit (("\x7b\"id\": ").data) (']' :: rest) = none := by
    have hnp : (("\x7b\"id\": ").data).isPrefixOf (']' :: rest) = false := by
      rw [show ("\x7b\"id\": ").data = '\x7b' :: ("\"id\": ").data from rfl]
      simp [List.isPrefixOf]
    simp [parseLit, hnp]
  unfold parseEvent
  rw [hpre]
  simp

theorem parseEventsRest_rbracket (fuel : Nat) (acc : List EventData) (rest : List Char) :
    parseEventsRest fuel acc (']' :: rest) = some (acc.reverse, rest) := by
  unfold parseEventsRest
  simp

theorem parseEventsRest_comma (fuel : Nat) (acc : List EventData) (rest2 : List Char) :
    parseEventsRest (fuel + 1) acc (',' :: ' ' :: rest2) =
      (match parseEvent rest2 with
       | some (x, r1) => parseEventsRest fuel (x :: acc) r1
       | none => none) := rfl

theorem parseEventsRest_roundtrip :
    ∀ (xs : List EventData), (∀ x ∈ xs, goodEvent x = true) →
      ∀ (fuel : Nat), xs.length ≤ fuel →
      ∀ (acc : List EventData) (rest : List Char),
        parseEventsRest fuel acc (encodeRestItems encodeEvent xs ++ ']' :: rest) =
          some (acc.reverse ++ xs, rest) := by
  intro xs
  induction xs with
  | nil =>
    intro _ fuel _ acc rest
    rw [show encodeRestItems encodeEvent ([] : List EventData) = [] from rfl,
      List.nil_append, parseEventsRest_rbracket]
    simp
  | cons x t ih =>
    intro hgood fuel hf acc rest
    cases fuel with
    | zero => simp at hf
    | succ fuel' =>
      have hf' : t.length ≤ fuel' := by simp at hf; omega
      have hx : goodEvent x = true := hgood x (List.mem_cons_self x t)
      have ht : ∀ y ∈ t, goodEvent y = true := fun y hy => hgood y (List.mem_cons_of_mem x hy)
      have hpe : parseEvent (encodeEvent x ++
          (encodeRestItems encodeEvent t ++ ']' :: rest)) =
          some (x, encodeRestItems encodeEvent t ++ ']' :: rest) :=
        parseEvent_roundtrip x hx _
      show parseEventsRest (fuel' + 1) acc
        ((',' :: ' ' :: encodeEvent x ++ encodeRestItems encodeEvent t) ++ ']' :: rest) =
        some (acc.reverse ++ x :: t, rest)
      rw [show (',' :: ' ' :: encodeEvent x ++ encodeRestItems encodeEvent t) ++ ']' :: rest
          = ',' :: ' ' :: (encodeEvent x ++ (encodeRestItems encodeEvent t ++ ']' :: rest))
        by simp [List.cons_append, List.append_assoc]]
      rw [parseEventsRest_comma, hpe]
      show parseEventsRest fuel' (x :: acc)
        (encodeRestItems encodeEvent t ++ ']' :: rest) = some (acc.reverse ++ x :: t, rest)
      rw [ih ht fuel' hf' (x :: acc) rest]
      simp

theorem parseEvents_roundtrip (xs : List EventData) (h : ∀ x ∈ xs, goodEvent x = true)
    (rest : List Char) :
    parseEvents (encodeListJ encodeEvent xs ++ rest) = some (xs, rest) := by
  cases xs with
  | nil =>
    show parseEvents (('[' :: [] ++ [']']) ++ rest) = some ([], rest)
    unfold parseEvents
    simp [parseEvent_right_bracket]
  | cons x t =>
    have hx : goodEvent x = true := h x (List.mem_cons_self x t)
    have ht : ∀ y ∈ t, goodEvent y = true := fun y hy => h y (List.mem_cons_of_mem x hy)
    show parseEvents (('[' :: (encodeEvent x ++ encodeRestItems encodeEvent t) ++ [']'])
        ++ rest) = some (x :: t, rest)
    simp only [List.cons_append, List.append_assoc, List.singleton_append, List.nil_append]
    unfold parseEvents
    have hpe : parseEvent (encodeEvent x ++ (encodeRestItems encodeEvent t ++ ']' :: rest)) =
        some (x, encodeRestItems encodeEvent t ++ ']' :: rest) :=
      parseEvent_roundtrip x hx _
    simp only [hpe]
    have hlen : t.length ≤ (encodeRestItems encodeEvent t ++ ']' :: rest).length := by
      simp only [List.length_append, List.length_cons]
      have := encodeRestItems_length_ge encodeEvent t
      omega
    have hrest := parseEventsRest_roundtrip t ht
      (encodeRestItems encodeEvent t ++ ']' :: rest).length hlen [x] rest
    simpa using hrest

theorem decodeEvents_encodeEvents (es : List EventData) (h : goodEvents es = true) :
    decodeEvents (encodeEvents es) = some es := by
  have hall : ∀ x ∈ es, goodEvent x = true := fun x hx => List.all_eq_true.mp h x hx
  unfold decodeEvents encodeEvents
  have harg : (⟨encodeListJ encodeEvent es⟩ : String).data = encodeListJ encodeEvent es := rfl
  rw [harg, show encodeListJ encodeEvent es = encodeListJ encodeEvent es ++ [] by simp,
    parseEvents_roundtrip es hall []]

/-- C10: the session cache round trip — saving an event list under a session
id and retrieving it before its TTL elapses returns a structurally equal
list; a never-stored id yields an explicit absent result; an entry read
after its TTL has elapsed yields absent; and with no connection, save
returns failure and get returns absent, all without raising (every operation
is total). -/
theorem c10_session_cache :
    (∀ (st : RedisState) (now : Nat) (sid : String) (events : List EventData),
      st.connected = true → goodEvents events = true →
      (save_events_data st now sid events 3600).1 = true ∧
      (∀ t, t < now + 3600 →
        get_events_data (save_events_data st now sid events 3600).2 t sid = some events)) ∧
    (∀ (st : RedisState) (now : Nat) (sid : String),
      st.connected = true → st.store.lookup ("events:" ++ sid) = none →
      get_events_data st now sid = none) ∧
    (∀ (st : RedisState) (now : Nat) (sid : String) (events : List EventData) (t : Nat),
      now + 3600 ≤ t →
      get_events_data (save_events_data st now sid events 3600).2 t sid = none) ∧
    (∀ (st : RedisState) (now : Nat) (sid : String) (events : List EventData),
      st.connected = false →
      save_events_data st now sid events 3600 = (false, st) ∧
      get_events_data st now sid = none) := by
  refine ⟨?_, ?_, ?_, ?_⟩
  · intro st now sid events hc hg
    constructor
    · simp [save_events_data, hc]
    · intro t htl
      simp only [save_events_data, hc, Bool.not_true, Bool.false_eq_true, if_false]
      simp [get_events_data, hc, storeLive, List.lookup, htl,
        decodeEvents_encodeEvents events hg]
  · intro st now sid hc habs
    simp [get_events_data, hc, storeLive, habs]
  · intro st now sid events t htl
    by_cases hc : st.connected = true
    · simp only [save_events_data, hc, Bool.not_true, Bool.false_eq_true, if_false]
      have hnl : ¬t < now + 3600 := by omega
      simp [get_events_data, hc, storeLive, List.lookup, hnl]
    · have hc' : st.connected = false := by
        cases h : st.connected
        · rfl
        · exact absurd h hc
      simp [save_events_data, get_events_data, hc']
  · intro st now sid events hc
    constructor
    · simp [save_events_data, hc]
    · simp [get_events_data, hc]

/-- C10 witness: the round trip, the absent-id case, the expiry case and the
disconnected case at concrete states. -/
theorem c10_session_cache_witness :
    (save_events_data ⟨true, []⟩ 0 "abc" demoEvents 3600).1 = true ∧
    get_events_data (save_events_data ⟨true, []⟩ 0 "abc" demoEvents 3600).2 10 "abc"
      = some demoEvents ∧
    get_events_data ⟨true, []⟩ 0 "nope" = none ∧
    get_events_data (save_events_data ⟨true, []⟩ 0 "abc" demoEvents 3600).2 3600 "abc" = none ∧
    save_events_data ⟨false, []⟩ 0 "abc" demoEvents 3600 = (false, ⟨false, []⟩) := by
  have h := c10_session_cache
  have hgood : goodEvents demoEvents = true := by decide
  exact ⟨(h.1 ⟨true, []⟩ 0 "abc" demoEvents rfl hgood).1,
    (h.1 ⟨true, []⟩ 0 "abc" demoEvents rfl hgood).2 10 (by omega),
    h.2.1 ⟨true, []⟩ 0 "nope" rfl rfl,
    h.2.2.1 ⟨true, []⟩ 0 "abc" demoEvents 3600 (by omega),
    (h.2.2.2 ⟨false, []⟩ 0 "abc" demoEvents rfl).1⟩

end ES
